import Mathlib

/-!
Verification development for the permit document extraction and compliance
status engine of the deped-school-permit-system repository.

The JavaScript sources are embedded shallowly:

* `src/test_status.js` : `parseSchoolYearEnd`, `getStatus`, `hasPermitGap`,
  `getOverallSchoolStatus` (the compliance classifier of the spec);
* the exported parser module (`cleanOCRText`, `extractSchoolInfoFromText`,
  `detectStrands`, `extractPermitDetails`) tested by `tests/parser.test.js`.

Machine integers are modelled as `Int`/`Nat`; JavaScript strings as Lean
`String`/`List Char` (the inputs of interest are BMP text, one UTF-16 unit
per `Char`).  Dates are modelled timezone-free (host clock in UTC): a date
truncated to local midnight is represented by its day number relative to
1970-01-01, so `Math.floor((now - exp) / 86400000)` on two midnight
timestamps is exactly the difference of the two day numbers.  The JS `Date`
constructor quirks that matter are modelled explicitly: a year argument in
0..99 is mapped to 1900+year, and a time value farther than 1e8 days from
the epoch is an Invalid Date, which makes `daysPast` NaN and sends
`getStatus` into its final `Closed` branch.
-/

namespace DepEd

/-- JavaScript whitespace (the `\s` class, `String.prototype.trim`,
and the leading-whitespace skip of `parseInt`). -/
def isJsWs (c : Char) : Bool :=
  c = ' ' ∨ c = '\t' ∨ c = '\n' ∨ c.toNat = 11 ∨ c.toNat = 12 ∨ c = '\r' ∨
  c.toNat = 160 ∨ c.toNat = 5760 ∨ (8192 ≤ c.toNat ∧ c.toNat ≤ 8202) ∨
  c.toNat = 8232 ∨ c.toNat = 8233 ∨ c.toNat = 8239 ∨ c.toNat = 8287 ∨
  c.toNat = 12288 ∨ c.toNat = 65279

def isDigitA (c : Char) : Bool := '0' ≤ c ∧ c ≤ '9'

def isAsciiLetter (c : Char) : Bool :=
  ('A' ≤ c ∧ c ≤ 'Z') ∨ ('a' ≤ c ∧ c ≤ 'z')

/-- ASCII lower-casing, the case folding used by the `/i` regex flag on the
characters that occur in the embedded patterns. -/
def toLowerA (c : Char) : Char :=
  if 'A' ≤ c ∧ c ≤ 'Z' then Char.ofNat (c.toNat + 32) else c

/-- ASCII upper-casing (model of `String.prototype.toUpperCase` on the
ASCII inputs the parser deals with). -/
def toUpperA (c : Char) : Char :=
  if 'a' ≤ c ∧ c ≤ 'z' then Char.ofNat (c.toNat - 32) else c

def jsToUpper (s : String) : String := String.mk (s.data.map toUpperA)

/-- Model of `String.prototype.trim`. -/
def jsTrim (s : String) : String :=
  String.mk (((s.data.dropWhile isJsWs).reverse.dropWhile isJsWs).reverse)

def digitsVal (l : List Char) : Nat :=
  l.foldl (fun acc c => acc * 10 + (c.toNat - 48)) 0

/-- Model of `parseInt(s, 10)`: skip leading whitespace, optional sign,
then the longest digit run; `none` models `NaN`. -/
def jsParseInt (s : String) : Option Int :=
  let l := s.data.dropWhile isJsWs
  let sgn : Int := match l with | '-' :: _ => -1 | _ => 1
  let l2 := match l with
    | '-' :: r => r
    | '+' :: r => r
    | _ => l
  let ds := l2.takeWhile isDigitA
  if ds.isEmpty then none else some (sgn * (digitsVal ds : Int))

/-- Split a character list at every separator character (keeping empty
pieces), as `String.prototype.split` with a single-character-class regex. -/
def splitOnChar (p : Char → Bool) : List Char → List (List Char)
  | [] => [[]]
  | c :: cs =>
    if p c then [] :: splitOnChar p cs
    else
      match splitOnChar p cs with
      | [] => [[c]]
      | piece :: rest => (c :: piece) :: rest

/-- Embedding of `parseSchoolYearEnd` from `src/test_status.js`:
split on `-` or en-dash; two pieces give the second year (with
`2000 + YY` when the second piece has exactly two characters), any other
shape falls through to `parseInt` of the whole trimmed string plus one. -/
def parseSchoolYearEnd (schoolYear : String) : Option Int :=
  if schoolYear = "" then none
  else
    let parts := (splitOnChar (fun c => c = '-' ∨ c = '–') (jsTrim schoolYear).data).map
      (fun l => jsTrim (String.mk l))
    match parts with
    | [p1, p2] =>
      match jsParseInt p1, jsParseInt p2 with
      | some _, some en => if p2.length = 2 then some (2000 + en) else some en
      | _, _ => none
    | _ =>
      match jsParseInt (jsTrim schoolYear) with
      | some v => some (v + 1)
      | none => none

/-- Day number of a proleptic-Gregorian civil date relative to 1970-01-01
(Howard Hinnant's `days_from_civil`, on `Int`). -/
def daysFromCivil (y m d : Int) : Int :=
  let y2 := if m ≤ 2 then y - 1 else y
  let era := y2.fdiv 400
  let yoe := y2 - era * 400
  let mp := (m + 9).emod 12
  let doy := (153 * mp + 2).fdiv 5 + d - 1
  let doe := yoe * 365 + yoe.fdiv 4 - yoe.fdiv 100 + doy
  era * 146097 + doe - 719468

/-- The year actually used by `new Date(y, 11, 31)`: the JS `Date`
constructor maps a year argument in 0..99 to 1900 + y. -/
def jsDateYear (y : Int) : Int :=
  if 0 ≤ y ∧ y ≤ 99 then y + 1900 else y

/-- Day number of the `new Date(endYear, 11, 31)` expiration date. -/
def expirationDay (endYear : Int) : Int :=
  daysFromCivil (jsDateYear endYear) 12 31

/-- A JS `Date` time value is valid iff it is within 1e8 days of the epoch;
outside that, `getTime()` is NaN. -/
def dateInRange (day : Int) : Bool :=
  -100000000 ≤ day ∧ day ≤ 100000000

/-- Result record of the status functions, `{ label, color }`. -/
structure StatusR where
  label : String
  color : String
deriving DecidableEq

def stUnknown : StatusR := ⟨"Unknown", "gray"⟩
def stInvalidSY : StatusR := ⟨"Invalid SY", "gray"⟩
def stExpiringSoon : StatusR := ⟨"Expiring Soon", "orange"⟩
def stOperational : StatusR := ⟨"Operational", "green"⟩
def stForRenewal : StatusR := ⟨"For Renewal", "yellow"⟩
def stClosed : StatusR := ⟨"Closed", "red"⟩
def stNoRecords : StatusR := ⟨"No Records", "gray"⟩

/-- The threshold cascade of `getStatus` on a (non-NaN) `daysPast`. -/
def statusFromDaysPast (daysPast : Int) : StatusR :=
  if daysPast ≤ 0 then
    if daysPast > -90 then stExpiringSoon else stOperational
  else if daysPast ≤ 365 then stForRenewal
  else stClosed

/-- Embedding of `getStatus(schoolYear, mockTodayDate)` from
`src/test_status.js`.  `now` is the day number of the (midnight-truncated)
reference date.  `!endYear` is true for both a failed parse and a parsed
end year equal to 0.  An out-of-range expiration date is an Invalid Date:
`daysPast` is NaN, both `<=` tests are false, and the result is Closed. -/
def getStatus (schoolYear : String) (now : Int) : StatusR :=
  if schoolYear = "" then stUnknown
  else
    match parseSchoolYearEnd schoolYear with
    | none => stInvalidSY
    | some endYear =>
      if endYear = 0 then stInvalidSY
      else
        let exp := expirationDay endYear
        if dateInRange exp then statusFromDaysPast (now - exp)
        else stClosed

/-- Permit record as consumed by the status functions. -/
structure SPermit where
  permitNumber : String
  schoolYear : String
deriving DecidableEq

/-- Stable insertion sort; models the (stable) JS `Array.prototype.sort`
with a numeric comparator. -/
def insSorted (le : α → α → Bool) (x : α) : List α → List α
  | [] => [x]
  | y :: ys => if le x y then x :: y :: ys else y :: insSorted le x ys

def insSortBy (le : α → α → Bool) : List α → List α
  | [] => []
  | x :: xs => insSorted le x (insSortBy le xs)

/-- The ascending-sorted list of successfully parsed end-years of a permit
list (`.map(parseSchoolYearEnd).filter(y => y != null).sort((a,b) => a-b)`). -/
def sortedYears (permits : List SPermit) : List Int :=
  insSortBy (fun a b => a ≤ b) (permits.filterMap (fun p => parseSchoolYearEnd p.schoolYear))

/-- The adjacent-gap scan of `hasPermitGap`: true iff two consecutive
entries differ by more than 1. -/
def gapScan : List Int → Bool
  | a :: b :: rest => if b - a > 1 then true else gapScan (b :: rest)
  | _ => false

/-- Embedding of `hasPermitGap` from `src/test_status.js`. -/
def hasPermitGap (permits : List SPermit) : Bool :=
  if permits.isEmpty then true
  else
    let years := sortedYears permits
    if years.isEmpty then true else gapScan years

/-- Sort key of `getOverallSchoolStatus`: `parseSchoolYearEnd(sy) || 0`. -/
def endYearKey (p : SPermit) : Int :=
  (parseSchoolYearEnd p.schoolYear).getD 0

/-- Embedding of `getOverallSchoolStatus(permits, mockTodayDate)` from
`src/test_status.js`: `No Records` on the empty list, `Closed` on a
coverage gap, else the individual status of the permit with the greatest
end-year (stable descending sort, take the head). -/
def getOverallSchoolStatus (permits : List SPermit) (now : Int) : StatusR :=
  if permits.isEmpty then stNoRecords
  else if hasPermitGap permits then stClosed
  else
    let sorted := insSortBy (fun a b => endYearKey b ≤ endYearKey a) permits
    getStatus (sorted.headD ⟨"", ""⟩).schoolYear now

/-- The status formula exactly as the specification states it (claim C1):
`daysPast` measured from December 31 of the parsed end year itself, with no
Date-constructor year adjustment and no validity range.  Kept separate from
`getStatus` so the two can be compared. -/
def specStatusOf (endYear : Int) (now : Int) : StatusR :=
  statusFromDaysPast (now - daysFromCivil endYear 12 31)

/-!  The OCR text normalizer `cleanOCRText`.  Each `.replace` stage of the
source is one function on `List Char`; the stages compose in source order.
A global regex replace scans left to right, substitutes the leftmost match,
and resumes immediately after the replaced span, which is exactly what the
recursions below do. -/

/-- Stages 1-5, the single-character substitutions
`| -> I`, `[ -> L`, `] -> J`, `{ -> (`, `} -> )`. -/
def chmap (c : Char) : Char :=
  if c = '|' then 'I'
  else if c = '[' then 'L'
  else if c = ']' then 'J'
  else if c.toNat = 123 then '('
  else if c.toNat = 125 then ')'
  else c

/-- Stage 6, `replace(/([0-9])s(?=\s)/gi, c1)`: drop an `s`/`S` between a
digit and whitespace (the lookahead is not consumed, so scanning resumes at
the whitespace character). -/
def wsHead : List Char → Bool
  | c :: _ => isJsWs c
  | [] => false

def dropYearS : List Char → List Char
  | [] => []
  | [c] => [c]
  | d :: s :: rest =>
    if isDigitA d ∧ (s = 's' ∨ s = 'S') ∧ wsHead rest then
      d :: dropYearS rest
    else d :: dropYearS (s :: rest)

/-- Stage 7, `replace(/([a-z])0/gi, c1 + o)`: a zero right after a letter
becomes `o`; both characters are consumed. -/
def fixLetterZero : List Char → List Char
  | [] => []
  | [c] => [c]
  | c :: d :: rest =>
    if isAsciiLetter c ∧ d = '0' then c :: 'o' :: fixLetterZero rest
    else c :: fixLetterZero (d :: rest)

/-- Stage 8, `replace(/0([a-z])/gi, o + c1)`: a zero right before a letter
becomes `o`; both characters are consumed. -/
def fixZeroLetter : List Char → List Char
  | [] => []
  | [c] => [c]
  | c :: d :: rest =>
    if c = '0' ∧ isAsciiLetter d then 'o' :: d :: fixZeroLetter rest
    else c :: fixZeroLetter (d :: rest)

/-- Case-insensitive literal prefix strip: `some rest` iff the list starts
with the given word (ASCII case folded). -/
def stripCI : List Char → List Char → Option (List Char)
  | [], l => some l
  | _ :: _, [] => none
  | w :: ws, c :: cs => if toLowerA c = toLowerA w then stripCI ws cs else none

/-- One attempt of `WORD1\s*WORD2` at the head of the list, returning the
remainder after the match.  The `\s*` is effectively deterministic: if the
maximal whitespace run is not followed by WORD2 no shorter run can be,
because WORD2 starts with a non-whitespace character. -/
def splitWordMatch (w1 w2 : List Char) (l : List Char) : Option (List Char) :=
  match stripCI w1 l with
  | none => none
  | some r1 => stripCI w2 (r1.dropWhile isJsWs)

/-- Stages 9-10 engine, `replace(/W1\s*W2/gi, repl)` (fuelled; the fuel is
initialised to the list length, and every step consumes at least one
character, so it never runs out). -/
def fixSplitGo (w1 w2 repl : List Char) : Nat → List Char → List Char
  | 0, l => l
  | _ + 1, [] => []
  | fuel + 1, c :: cs =>
    match splitWordMatch w1 w2 (c :: cs) with
    | some rest => repl ++ fixSplitGo w1 w2 repl fuel rest
    | none => c :: fixSplitGo w1 w2 repl fuel cs

def fixSplitWord (w1 w2 repl : String) (l : List Char) : List Char :=
  fixSplitGo w1.data w2.data repl.data l.length l

/-- Stage 11, `replace(/l{3}/g, III)` (case-sensitive). -/
def fixTripleL : List Char → List Char
  | [] => []
  | [c] => [c]
  | [c, d] => [c, d]
  | a :: b :: c :: rest =>
    if a = 'l' ∧ b = 'l' ∧ c = 'l' then 'I' :: 'I' :: 'I' :: fixTripleL rest
    else a :: fixTripleL (b :: c :: rest)

/-- Control characters stripped by stage 12
(`[\x00-\x08\x0B-\x0C\x0E-\x1F]`). -/
def isStrippedCtl (c : Char) : Bool :=
  c.toNat ≤ 8 ∨ c.toNat = 11 ∨ c.toNat = 12 ∨ (14 ≤ c.toNat ∧ c.toNat ≤ 31)

/-- Embedding of `cleanOCRText` from the parser module (the normalizer of
the spec): empty in, empty out; otherwise the twelve replace stages in
source order. -/
def cleanOCRText (text : String) : String :=
  if text = "" then ""
  else
    String.mk <|
      (fixTripleL
        (fixSplitWord "DEPART" "MENT" "DEPARTMENT"
          (fixSplitWord "GOVERN" "MENT" "GOVERNMENT"
            (fixZeroLetter
              (fixLetterZero
                (dropYearS
                  ((text.data).map chmap))))))).filter (fun c => ¬ isStrippedCtl c)

/-!  A small backtracking regular-expression engine with the JavaScript
semantics the parser module relies on: leftmost match, alternation
preference left to right, greedy quantifiers try the longer iteration
first, lazy quantifiers the shorter, a quantified body that matches the
empty string ends the iteration, captures are recorded along the
successful path only, `^`/`$` are non-multiline, `.` excludes line
terminators, and `\b` is the ASCII word boundary.  The matcher is written
in continuation-passing style; `fuel` bounds the depth of the search tree
(pattern depth plus one per quantifier iteration), so a linear budget in
the subject length is sufficient for the fixed patterns embedded here. -/

inductive RE where
  | eps : RE
  | cls : (Char → Bool) → RE
  | cat : RE → RE → RE
  | alt : RE → RE → RE
  | star : Bool → RE → RE
  | grp : Nat → RE → RE
  | wordB : RE
  | bos : RE
  | eos : RE

/-- Matcher state: position, remaining characters, previous character
(`none` exactly at position 0). -/
structure MSt where
  pos : Nat
  rest : List Char
  prev : Option Char

/-- Captures recorded as `(group, start, stop)`, most recent first. -/
abbrev Caps := List (Nat × Nat × Nat)

def isWordC (c : Char) : Bool := isAsciiLetter c ∨ isDigitA c ∨ c = '_'

def isWordO : Option Char → Bool
  | some c => isWordC c
  | none => false

def headO : List Char → Option Char
  | c :: _ => some c
  | [] => none

def atBoundary (st : MSt) : Bool := isWordO st.prev != isWordO (headO st.rest)

def mtch (fuel : Nat) (re : RE) (st : MSt) (caps : Caps)
    (k : MSt → Caps → Option (MSt × Caps)) : Option (MSt × Caps) :=
  match fuel with
  | 0 => none
  | fuel + 1 =>
    match re with
    | .eps => k st caps
    | .cls p =>
      match st.rest with
      | [] => none
      | c :: cs => if p c then k ⟨st.pos + 1, cs, some c⟩ caps else none
    | .cat a b => mtch fuel a st caps (fun st2 c2 => mtch fuel b st2 c2 k)
    | .alt a b =>
      match mtch fuel a st caps k with
      | some r => some r
      | none => mtch fuel b st caps k
    | .star g r =>
      if g then
        match mtch fuel r st caps (fun st2 c2 =>
            if st2.pos = st.pos then none else mtch fuel (.star g r) st2 c2 k) with
        | some res => some res
        | none => k st caps
      else
        match k st caps with
        | some res => some res
        | none =>
          mtch fuel r st caps (fun st2 c2 =>
            if st2.pos = st.pos then none else mtch fuel (.star g r) st2 c2 k)
    | .grp i r => mtch fuel r st caps (fun st2 c2 => k st2 ((i, st.pos, st2.pos) :: c2))
    | .wordB => if atBoundary st then k st caps else none
    | .bos => if st.pos = 0 then k st caps else none
    | .eos => if st.rest.isEmpty then k st caps else none

/-- Result of a successful search: match index, match end, captures. -/
structure MatchRes where
  idx : Nat
  stop : Nat
  caps : Caps
deriving DecidableEq

def kFirst : MSt → Caps → Option (MSt × Caps) := fun st caps => some (st, caps)

/-- Find the leftmost match at or after the given position (the scan a JS
regex performs: try each index in turn). -/
def searchGo (re : RE) (fuelM : Nat) : List Char → Nat → Option Char → Option MatchRes
  | rest, pos, prev =>
    match mtch fuelM re ⟨pos, rest, prev⟩ [] kFirst with
    | some (st2, c2) => some ⟨pos, st2.pos, c2⟩
    | none =>
      match rest with
      | [] => none
      | c :: cs => searchGo re fuelM cs (pos + 1) (some c)

def engineFuel (n : Nat) : Nat := 1000 + 20 * (n + 2)

def reFindL (re : RE) (t : List Char) : Option MatchRes :=
  searchGo re (engineFuel t.length) t 0 none

def reTestL (re : RE) (t : List Char) : Bool := (reFindL re t).isSome

/-- All matches of a `/g` regex driven by `exec` in a loop: each search
restarts at `lastIndex`, the end of the previous match.  (None of the
embedded patterns can match the empty string; the `idx + 1` fallback keeps
the model total on that dead branch, where the JS loop would not
terminate.) -/
def execAllGo (re : RE) (t : List Char) (fuelM : Nat) : Nat → Nat → List MatchRes
  | 0, _ => []
  | fuel + 1, start =>
    match searchGo re fuelM (t.drop start) start
        (if start = 0 then none else headO (t.drop (start - 1))) with
    | none => []
    | some m =>
      m :: execAllGo re t fuelM fuel (if m.stop > m.idx then m.stop else m.idx + 1)

def execAll (re : RE) (t : List Char) : List MatchRes :=
  execAllGo re t (engineFuel t.length) (t.length + 1) 0

def capGet (caps : Caps) (i : Nat) : Option (Nat × Nat) :=
  match caps with
  | [] => none
  | (j, a, b) :: rest => if j = i then some (a, b) else capGet rest i

def sliceStr (t : List Char) (a b : Nat) : String := String.mk ((t.drop a).take (b - a))

def capSlice (t : List Char) (caps : Caps) (i : Nat) : String :=
  match capGet caps i with
  | some (a, b) => sliceStr t a b
  | none => ""

/-!  Regex constructors mirroring the source patterns. -/

def reOpt (r : RE) : RE := .alt r .eps
def rePlus (r : RE) : RE := .cat r (.star true r)
def rePlusLazy (r : RE) : RE := .cat r (.star false r)

def ciEq (c : Char) : Char → Bool := fun x => toLowerA x = toLowerA c

/-- Case-insensitive literal (all the embedded regexes carry the `/i`
flag). -/
def litCI (s : String) : RE := s.data.foldr (fun c acc => RE.cat (.cls (ciEq c)) acc) .eps

def altList : List RE → RE
  | [] => .cls (fun _ => false)
  | [r] => r
  | r :: rs => .alt r (altList rs)

def catList : List RE → RE
  | [] => .eps
  | r :: rs => .cat r (catList rs)

def wsC : RE := .cls isJsWs
def nlC : RE := .cls (fun c => c = '\n')
def dotC : RE := .cls (fun c => ¬ (c = '\n' ∨ c = '\r' ∨ c.toNat = 8232 ∨ c.toNat = 8233))
def digitC : RE := .cls isDigitA
def pnumC : RE := .cls (fun c => isAsciiLetter c ∨ isDigitA c ∨ isJsWs c ∨ c = '-')
def nameC : RE := .cls (fun c => isAsciiLetter c ∨ isDigitA c ∨ isJsWs c ∨ c = '.' ∨
  c = ',' ∨ c = '&' ∨ c.toNat = 39 ∨ c = '(' ∨ c = ')' ∨ c = '-')
def notNlC : RE := .cls (fun c => ¬ c = '\n')
def sepWsColonDotC : RE := .cls (fun c => isJsWs c ∨ c = ':' ∨ c = '.')
def sepWsCommaDotC : RE := .cls (fun c => isJsWs c ∨ c = ',' ∨ c = '.')
def dashBothC : RE := .cls (fun c => c = '-' ∨ c = '–')

/-- Greedy bounded repetition `{0,n}` of a digit. -/
def dUpTo : Nat → RE
  | 0 => .eps
  | n + 1 => reOpt (.cat digitC (dUpTo n))

def dRep4 : RE := catList [digitC, digitC, digitC, digitC]

/-- The year token `(\d{4}[-–]?\d{0,4})` shared by all three families. -/
def yearTok : RE := catList [dRep4, reOpt dashBothC, dUpTo 4]

/-- `(?:s\.?|series\s+of)`. -/
def sDotTok : RE :=
  .alt (.cat (litCI "s") (reOpt (.cls (fun c => c = '.'))))
    (catList [litCI "series", rePlus wsC, litCI "of"])

/-- `(?:No\.?|Number)?`. -/
def noTok : RE :=
  reOpt (.alt (.cat (litCI "No") (reOpt (.cls (fun c => c = '.')))) (litCI "Number"))

/-- `(?:\s*\(.*?\))?`, the optional parenthesized qualifier. -/
def parenQual : RE :=
  reOpt (catList [.star true wsC, .cls (fun c => c = '('), .star false dotC,
    .cls (fun c => c = ')')])

def words2CI (a b : String) : RE := catList [litCI a, rePlus wsC, litCI b]
def words3CI (a b c : String) : RE := catList [litCI a, rePlus wsC, litCI b, rePlus wsC, litCI c]

/-- Family 1 pattern `gpRegex` of `extractPermitDetails`. -/
def gpRE : RE :=
  catList [
    altList [words2CI "Government" "Permit", litCI "GP", words2CI "Provisional" "Permit",
      words3CI "Authority" "to" "Operate", words2CI "DepEd" "Permit"],
    parenQual,
    rePlus sepWsColonDotC,
    noTok,
    .star true sepWsColonDotC,
    .grp 1 (rePlus pnumC),
    .star true sepWsCommaDotC,
    sDotTok,
    .star true wsC,
    .grp 2 yearTok]

/-- Family 2 pattern `grRegex` (Government Recognition); the number group
is optional. -/
def grRE : RE :=
  catList [
    words2CI "Government" "Recognition",
    parenQual,
    rePlus sepWsColonDotC,
    noTok,
    .star true sepWsColonDotC,
    reOpt (.grp 1 (rePlus pnumC)),
    .star true sepWsCommaDotC,
    sDotTok,
    .star true wsC,
    .grp 2 yearTok]

/-- Family 3 pattern `directRegex`
`\b(K|E|JHS|SHS|S)\s*[-]?\s*(\d{2,5})\s*[,.]?\s*(?:s\.?|series\s+of)?\s*(\d{4}[-–]?\d{0,4})\b`. -/
def directRE : RE :=
  catList [
    .wordB,
    .grp 1 (altList [litCI "K", litCI "E", litCI "JHS", litCI "SHS", litCI "S"]),
    .star true wsC,
    reOpt (.cls (fun c => c = '-')),
    .star true wsC,
    .grp 2 (catList [digitC, digitC, dUpTo 3]),
    .star true wsC,
    reOpt (.cls (fun c => c = ',' ∨ c = '.')),
    .star true wsC,
    reOpt sDotTok,
    .star true wsC,
    .grp 3 yearTok,
    .wordB]

/-!  Level and strand detection. -/

/-- The permit-number prefix chain shared by families 1 and 3:
`/^K[-]/i`, `/^E[-]/i`, `/^S[-]/i`, `/^JHS[-]/i`, `/^SHS[-]/i`. -/
def startsDashCI (letters : String) (s : String) : Bool :=
  match stripCI letters.data s.data with
  | some ('-' :: _) => true
  | _ => false

/-- The level implied by a permit-number prefix, as the if/else chain of
family 1 tests it (S- is tried before SHS-, so S- wins for Junior High). -/
def prefixLvl (pNum : String) : Option String :=
  if startsDashCI "K" pNum then some "Kindergarten"
  else if startsDashCI "E" pNum then some "Elementary"
  else if startsDashCI "S" pNum ∨ startsDashCI "JHS" pNum then some "Junior High School"
  else if startsDashCI "SHS" pNum then some "Senior High School"
  else none

def juniorHighRE : RE := catList [litCI "Junior", .star true wsC, litCI "High"]
def seniorHighRE : RE := catList [litCI "Senior", .star true wsC, litCI "High"]

/-- The contextual level scan (`/Kindergarten/i`, `/Elementary/i`,
`/Junior\s*High/i`, `/Senior\s*High/i` over a window of the subject). -/
def contextLevels (ctx : List Char) : List String :=
  (if reTestL (litCI "Kindergarten") ctx then ["Kindergarten"] else []) ++
  (if reTestL (litCI "Elementary") ctx then ["Elementary"] else []) ++
  (if reTestL juniorHighRE ctx then ["Junior High School"] else []) ++
  (if reTestL seniorHighRE ctx then ["Senior High School"] else [])

def commaOptC : RE := reOpt (.cls (fun c => c = ','))
def andAmp : RE := .alt (litCI "and") (.cls (fun c => c = '&'))
def dashSpC : RE := .cls (fun c => c = '-' ∨ c = ' ')

def stemRE : RE :=
  .alt (litCI "STEM")
    (catList [litCI "Science", commaOptC, litCI " Technology", commaOptC,
      litCI " Engineering", commaOptC, litCI " ", andAmp, litCI " Mathematics"])

def abmRE : RE :=
  .alt (litCI "ABM")
    (catList [litCI "Accountancy", commaOptC, litCI " Business", commaOptC,
      litCI " ", andAmp, litCI " Management"])

def humssRE : RE :=
  .alt (litCI "HUMSS") (catList [litCI "Humanities ", andAmp, litCI " Social Sciences"])

def gasRE : RE := .alt (litCI "GAS") (litCI "General Academic")

def tvlRE : RE :=
  .alt (litCI "TVL")
    (catList [litCI "Technical", dashSpC, litCI "Vocational", dashSpC, litCI "Livelihood"])

def artsRE : RE := catList [litCI "Arts ", andAmp, litCI " Design"]

/-- Embedding of `detectStrands` (full names, synonyms and abbreviations,
fixed order). -/
def detectStrands (txt : List Char) : List String :=
  (if reTestL stemRE txt then ["STEM"] else []) ++
  (if reTestL abmRE txt then ["ABM"] else []) ++
  (if reTestL humssRE txt then ["HUMSS"] else []) ++
  (if reTestL gasRE txt then ["GAS"] else []) ++
  (if reTestL tvlRE txt then ["TVL"] else []) ++
  (if reTestL (litCI "Sports") txt then ["Sports"] else []) ++
  (if reTestL artsRE txt then ["Arts and Design"] else [])

/-- `[...new Set(list)]`: keep the first occurrence of each element. -/
def jsSetDedupGo : List String → List String → List String
  | [], _ => []
  | x :: xs, seen =>
    if seen.contains x then jsSetDedupGo xs seen else x :: jsSetDedupGo xs (x :: seen)

def jsSetDedup (l : List String) : List String := jsSetDedupGo l []

/-- The permit record produced by the extractor. -/
structure PermitDraft where
  permitNumber : String
  schoolYear : String
  levels : List String
  strands : List String
deriving DecidableEq

/-- The context window `t.substring(Math.max(0, i - 1000), i + 1000)`. -/
def ctxAround (t : List Char) (i : Nat) : List Char :=
  (t.drop (i - 1000)).take ((i + 1000) - (i - 1000))

/-- The strand window `t.substring(Math.max(0, i - 500), i + 2000)`. -/
def strandCtx (t : List Char) (i : Nat) : List Char :=
  (t.drop (i - 500)).take ((i + 2000) - (i - 500))

/-- Family 1 entry builder: number and year from the captures, the length
guard (`continue` when over 25), prefix-first level inference with
contextual fallback, strands only for Senior High School. -/
def buildGp (t : List Char) (m : MatchRes) : Option PermitDraft :=
  let pNum := jsTrim (capSlice t m.caps 1)
  let sYear := jsTrim (capSlice t m.caps 2)
  if pNum.length > 25 then none
  else
    let levels :=
      match prefixLvl pNum with
      | some l => [l]
      | none => contextLevels (ctxAround t m.idx)
    let strands :=
      if levels.contains "Senior High School" then detectStrands (strandCtx t m.idx) else []
    some ⟨pNum, sYear, jsSetDedup levels, strands⟩

/-- Family 2 entry builder: `Gov. Rec.` when the number group is absent;
levels are taken from the context only — the prefix chain is not consulted
in this family. -/
def buildGr (t : List Char) (m : MatchRes) : Option PermitDraft :=
  let pNum := match capGet m.caps 1 with
    | some (a, b) => jsTrim (sliceStr t a b)
    | none => "Gov. Rec."
  if pNum.length > 25 then none
  else
    let sYear := capSlice t m.caps 2
    let levels := contextLevels (ctxAround t m.idx)
    let strands :=
      if levels.contains "Senior High School" then detectStrands (strandCtx t m.idx) else []
    some ⟨pNum, sYear, jsSetDedup levels, strands⟩

/-- The family 3 level list (`prefix === K ? ... : ...` chain). -/
def fam3Levels (pfx : String) : List String :=
  if pfx = "K" then ["Kindergarten"]
  else if pfx = "E" then ["Elementary"]
  else if pfx = "JHS" ∨ pfx = "S" then ["Junior High School"]
  else ["Senior High School"]

/-- One step of the family 3 loop: upper-case the prefix, upgrade a bare
`S` with a short number to `SHS`, skip when the `(number, year)` pair is
already present in the accumulated list, else append. -/
def fam3Step (t : List Char) (acc : List PermitDraft) (m : MatchRes) : List PermitDraft :=
  let p1 := jsToUpper (capSlice t m.caps 1)
  let g2 := capSlice t m.caps 2
  let pfx := if p1 = "S" ∧ g2.length ≤ 3 then "SHS" else p1
  let pNum := pfx ++ "-" ++ g2
  let sYear := capSlice t m.caps 3
  if acc.any (fun p => p.permitNumber = pNum ∧ p.schoolYear = sYear) then acc
  else
    let strands := if pfx = "SHS" then detectStrands (strandCtx t m.idx) else []
    acc ++ [⟨pNum, sYear, fam3Levels pfx, strands⟩]

def fam1List (t : List Char) : List PermitDraft := (execAll gpRE t).filterMap (buildGp t)

def fam2List (t : List Char) : List PermitDraft := (execAll grRE t).filterMap (buildGr t)

/-- All entries accumulated by the three families, in push order. -/
def famAll (t : List Char) : List PermitDraft :=
  (execAll directRE t).foldl (fam3Step t) (fam1List t ++ fam2List t)

/-- The dedup key of `extractPermitDetails`, the template string
`permitNumber - schoolYear`. -/
def pKey (p : PermitDraft) : String := p.permitNumber ++ "-" ++ p.schoolYear

/-- The final dedup loop: keep an entry iff its key is unseen. -/
def dedupGo : List PermitDraft → List String → List PermitDraft
  | [], _ => []
  | p :: rest, seen =>
    if seen.contains (pKey p) then dedupGo rest seen
    else p :: dedupGo rest (pKey p :: seen)

/-- Embedding of the exported `extractPermitDetails`: clean the text, run
the three pattern families, deduplicate by `(number-year)` key keeping the
first-seen entry. -/
def extractPermitDetails (text : String) : List PermitDraft :=
  if text = "" then []
  else dedupGo (famAll (cleanOCRText text).data) []

/-!  Institution extraction, `extractSchoolInfoFromText`. -/

structure SchoolInfo where
  schoolName : String
  address : String
deriving DecidableEq

def splitLines (s : String) : List String :=
  (splitOnChar (fun c => c = '\n') s.data).map String.mk

def isSubAt : List Char → List Char → Bool
  | [], _ => true
  | _ :: _, [] => false
  | a :: as, b :: bs => if a = b then isSubAt as bs else false

/-- Case-sensitive substring test (`String.prototype.includes`). -/
def containsSub (needle : List Char) : List Char → Bool
  | [] => needle.isEmpty
  | c :: cs => if isSubAt needle (c :: cs) then true else containsSub needle cs

/-- Case-insensitive substring test (an `/i` regex over a literal). -/
def containsCI (needle : String) (hay : String) : Bool := reTestL (litCI needle) hay.data

def eqCI (a b : String) : Bool := a.data.map toLowerA = b.data.map toLowerA

def nlOrBos : RE := .alt .bos nlC
def locSit : RE := .alt (litCI "located") (litCI "situated")
def atIn : RE := .alt (litCI "at") (litCI "in")

/-- Name strategy 1 pattern (`toMatch`): a `To` line or a
`Granted to`/`Issued to` phrase, then the capitalized run, then one of the
terminators. -/
def nameRE1 : RE :=
  catList [
    .alt (catList [nlOrBos, .star true wsC, litCI "To"])
      (catList [nlOrBos, .star false dotC,
        .alt (catList [litCI "Granted", rePlus wsC, litCI "to"])
          (catList [litCI "Issued", rePlus wsC, litCI "to"])]),
    .star true (.cls (fun c => c = ':' ∨ isJsWs c)),
    .star true nlC,
    .grp 1 (rePlusLazy nameC),
    altList [
      catList [rePlus nlC, litCI "(School)"],
      catList [rePlus wsC, litCI "located", rePlus wsC, litCI "at"],
      catList [rePlus wsC, litCI "to", rePlus wsC, litCI "operate"],
      catList [rePlus wsC, litCI "for", rePlus wsC, litCI "the"],
      nlC,
      .eos]]

/-- Name strategy 2 pattern (`theMatch`):
`The <name> located/situated at/in`. -/
def nameRE2 : RE :=
  catList [nlOrBos, .star true wsC, litCI "The", rePlus wsC, .grp 1 (rePlusLazy nameC),
    rePlus wsC, locSit, rePlus wsC, atIn]

def nameStrat1 (ct : String) : String :=
  match reFindL nameRE1 ct.data with
  | some m =>
    let cand := jsTrim (capSlice ct.data m.caps 1)
    if ¬ containsSub "Regional Director".data cand.data ∧ cand.length > 3 then cand else ""
  | none => ""

def nameStrat2 (ct : String) : String :=
  match reFindL nameRE2 ct.data with
  | some m => jsTrim (capSlice ct.data m.caps 1)
  | none => ""

/-- Name strategy 3: a line containing the `(School)` or
`(Name of School)` marker; the preceding line is the candidate unless too
short or literally `To`.  No early exit when the candidate is rejected. -/
def strat3Go : Option String → List String → String
  | _, [] => ""
  | prev, l :: ls =>
    if containsCI "(School)" l ∨ containsCI "(Name of School)" l then
      match prev with
      | some pl =>
        if pl.length > 3 ∧ ¬ eqCI pl "To" then pl else strat3Go (some l) ls
      | none => strat3Go (some l) ls
    else strat3Go (some l) ls

def nameStrat3 (ct : String) : String := strat3Go none ((splitLines ct).map jsTrim)

def skipWords : List String :=
  ["REPUBLIC", "DEPARTMENT", "EDUCATION", "REGION", "DIVISION", "GOVERNMENT",
   "PERMIT", "RECOGNITION", "SECRETARY", "OFFICE"]

/-- Name strategy 4: among the first 15 non-empty trimmed lines, the first
all-upper-case line longer than 5 characters containing no header word. -/
def strat4Go : List String → String
  | [] => ""
  | l :: ls =>
    if (l = jsToUpper l ∧ l.data.any (fun c => 'A' ≤ c ∧ c ≤ 'Z')) ∧
        ¬ skipWords.any (fun w => containsSub w.data l.data) ∧ l.length > 5 then l
    else strat4Go ls

def nameStrat4 (ct : String) : String :=
  strat4Go ((((splitLines ct).map jsTrim).filter (fun l => l.length > 0)).take 15)

/-- Name post-processing pattern
`/(?:Administrator|Principal|Head|Director)\s+of\s+(?:the\s+)?(.*)/i`. -/
def roleRE : RE :=
  catList [
    altList [litCI "Administrator", litCI "Principal", litCI "Head", litCI "Director"],
    rePlus wsC, litCI "of", rePlus wsC, reOpt (catList [litCI "the", rePlus wsC]),
    .grp 1 (.star true dotC)]

def respRE : RE :=
  catList [.bos, litCI "Respectfully", rePlus wsC, litCI "endorsed", rePlus wsC,
    litCI "to", rePlus wsC]

def punctTailRE : RE := catList [rePlus (.cls (fun c => c = ',' ∨ c = '.')), .eos]

/-- Non-global `String.prototype.replace`: splice the replacement over the
leftmost match. -/
def replaceFirst (re : RE) (repl : String) (s : String) : String :=
  match reFindL re s.data with
  | some m => String.mk ((s.data.take m.idx) ++ repl.data ++ (s.data.drop m.stop))
  | none => s

def cleanupName (n : String) : String :=
  let n1 := match reFindL roleRE n.data with
    | some m =>
      let g := capSlice n.data m.caps 1
      if g ≠ "" then jsTrim g else n
    | none => n
  let n2 := replaceFirst respRE "" n1
  replaceFirst punctTailRE "" n2

/-- Address pattern 1:
`/(?:located|situated)\s+(?:at|in)\s*[:;]?\s*([^\n]+)/i`. -/
def addrRE1 : RE :=
  catList [locSit, rePlus wsC, atIn, .star true wsC,
    reOpt (.cls (fun c => c = ':' ∨ c = ';')), .star true wsC, .grp 1 (rePlus notNlC)]

/-- Address pattern 2:
`/(?:^|\n)\s*(?:Address|Location)\s*[:.]?\s*([^\n]+)/i`. -/
def addrRE2 : RE :=
  catList [nlOrBos, .star true wsC, .alt (litCI "Address") (litCI "Location"),
    .star true wsC, reOpt (.cls (fun c => c = ':' ∨ c = '.')), .star true wsC,
    .grp 1 (rePlus notNlC)]

def trailVerbRE : RE :=
  catList [reOpt (.cls (fun c => c = ',')), rePlus wsC,
    .grp 1 (altList [litCI "is", litCI "was", litCI "has", litCI "and"]), .eos]

def punctTail2RE : RE :=
  catList [rePlus (.cls (fun c => c = '.' ∨ c = ',' ∨ c = ';' ∨ c = ':')), .eos]

def cleanupAddr (a : String) : String :=
  replaceFirst punctTail2RE "" (replaceFirst trailVerbRE "" a)

/-- Embedding of the exported `extractSchoolInfoFromText`: clean the text,
run the four name strategies first-match-wins, post-process a non-empty
name; run the two address patterns in order, post-process a non-empty
address. -/
def extractSchoolInfoFromText (text : String) : SchoolInfo :=
  if text = "" then ⟨"", ""⟩
  else
    let ct := cleanOCRText text
    let n1 := nameStrat1 ct
    let n2 := if n1 = "" then nameStrat2 ct else n1
    let n3 := if n2 = "" then nameStrat3 ct else n2
    let n4 := if n3 = "" then nameStrat4 ct else n3
    let nm := if n4 = "" then "" else cleanupName n4
    let ad :=
      match reFindL addrRE1 ct.data with
      | some m => jsTrim (capSlice ct.data m.caps 1)
      | none =>
        match reFindL addrRE2 ct.data with
        | some m => jsTrim (capSlice ct.data m.caps 1)
        | none => ""
    let ad2 := if ad = "" then ad else cleanupAddr ad
    ⟨nm, ad2⟩

/-- Characters that cannot trigger or interact with any `cleanOCRText`
substitution on a second pass: not the digit 0 (letter/zero confusion
rules), not `s`/`S` (year-plural rule), not lowercase `l` (triple-l rule),
not `m`/`M` (the split GOVERNMENT/DEPARTMENT rules need the M of MENT),
and not a stripped control character. -/
def ocrInert (c : Char) : Bool :=
  ¬ (c = '0' ∨ toLowerA c = 's' ∨ c = 'l' ∨ toLowerA c = 'm' ∨ isStrippedCtl c)

/-!  Helper lemmas. -/

theorem gapScan_iff (l : List Int) :
    gapScan l = true ↔ ¬ List.Chain' (fun a b : Int => b - a ≤ 1) l := by
  induction l with
  | nil => simp [gapScan]
  | cons a t ih =>
    cases t with
    | nil => simp [gapScan]
    | cons b r =>
      rw [gapScan, List.chain'_cons]
      by_cases hab : b - a > 1
      · simp [hab, if_pos hab]
        omega
      · rw [if_neg hab, ih]
        have : b - a ≤ 1 := by omega
        simp [this]

/-!  Claims about the compliance classifier (`src/test_status.js`). -/

/-- C1 counterexample: the school-year string `0-0` parses to end year 0,
but `getStatus` answers `Invalid SY` (the JS `!endYear` test is true for
0), not the status the claimed `daysPast` formula assigns. -/
theorem c1_counterexample :
    parseSchoolYearEnd "0-0" = some 0 ∧
    getStatus "0-0" (daysFromCivil 2026 2 4) ≠ specStatusOf 0 (daysFromCivil 2026 2 4) := by
  constructor
  · decide
  · decide

/-- C1 (amended): for every school-year string parsing to an end year
`e ≠ 0`, `getStatus` classifies `daysPast = now - day(Dec 31 of e')` by
the claimed thresholds (Operational iff `daysPast ≤ -90`, Expiring Soon iff
`-90 < daysPast ≤ 0`, For Renewal iff `0 < daysPast ≤ 365`, Closed iff
`daysPast > 365`), where `e'` is `e + 1900` for `e` in 0..99 (JS `Date`
two-digit-year mapping) and the result degrades to Closed when Dec 31 of
`e'` is outside the representable `Date` range; an end year of exactly 0 is
reported as `Invalid SY`.  The two concrete examples of the claim hold as
stated. -/
theorem c1_status_thresholds :
    (∀ (s : String) (now e : Int), parseSchoolYearEnd s = some e → e ≠ 0 →
      dateInRange (expirationDay e) = true →
      getStatus s now =
        (if now - expirationDay e ≤ -90 then stOperational
         else if now - expirationDay e ≤ 0 then stExpiringSoon
         else if now - expirationDay e ≤ 365 then stForRenewal
         else stClosed)) ∧
    (∀ (s : String) (now e : Int), parseSchoolYearEnd s = some e → e ≠ 0 →
      ¬ dateInRange (expirationDay e) = true → getStatus s now = stClosed) ∧
    getStatus "2024-2025" (daysFromCivil 2026 2 4) = stForRenewal ∧
    getStatus "2024-2025" (daysFromCivil 2028 1 1) = stClosed := by
  have hbody : ∀ (s : String) (now e : Int), parseSchoolYearEnd s = some e → e ≠ 0 →
      getStatus s now =
        (if dateInRange (expirationDay e) then statusFromDaysPast (now - expirationDay e)
         else stClosed) := by
    intro s now e hp he
    have hs : ¬ s = "" := by
      intro h0
      rw [h0] at hp
      simp [parseSchoolYearEnd] at hp
    unfold getStatus
    rw [if_neg hs, hp]
    simp [he]
  refine ⟨?_, ?_, by decide, by decide⟩
  · intro s now e hp he hin
    rw [hbody s now e hp he, if_pos hin]
    unfold statusFromDaysPast
    split_ifs <;> first | rfl | (exfalso; omega)
  · intro s now e hp he hin
    rw [hbody s now e hp he, if_neg hin]

/-- Witness for C1: the first example instantiated through the universal
part. -/
theorem c1_status_thresholds_w :
    getStatus "2024-2025" (daysFromCivil 2026 2 4) =
      (if daysFromCivil 2026 2 4 - expirationDay 2025 ≤ -90 then stOperational
       else if daysFromCivil 2026 2 4 - expirationDay 2025 ≤ 0 then stExpiringSoon
       else if daysFromCivil 2026 2 4 - expirationDay 2025 ≤ 365 then stForRenewal
       else stClosed) :=
  c1_status_thresholds.1 "2024-2025" (daysFromCivil 2026 2 4) 2025 (by decide) (by decide)
    (by decide)

/-- C2 counterexample: on the empty permit list `getOverallSchoolStatus`
does not answer Closed. -/
theorem c2_counterexample : getOverallSchoolStatus [] 0 ≠ stClosed := by decide

/-- C2 (amended): `overallStatus` applied to the empty permit list returns
the distinct status `No Records` (gray), not Closed; the empty-list test
short-circuits before the gap test. -/
theorem c2_empty_no_records : ∀ now : Int, getOverallSchoolStatus [] now = stNoRecords := by
  intro now
  rfl

/-- Witness for C2 at a concrete reference day. -/
theorem c2_empty_no_records_w : getOverallSchoolStatus [] 37 = stNoRecords :=
  c2_empty_no_records 37

/-- C3: for a nonempty permit list whose ascending-sorted parsed end-years
contain two consecutive values differing by more than 1 (that is, they are
not a chain of steps of at most 1), `getOverallSchoolStatus` returns
Closed, whatever the reference date — in particular even when the latest
permit alone would classify as Operational. -/
theorem c3_gap_closed :
    ∀ (ps : List SPermit) (now : Int), ps ≠ [] →
      ¬ List.Chain' (fun a b : Int => b - a ≤ 1) (sortedYears ps) →
      getOverallSchoolStatus ps now = stClosed := by
  intro ps now hne hgap
  have hgapb : hasPermitGap ps = true := by
    unfold hasPermitGap
    cases ps with
    | nil => exact absurd rfl hne
    | cons a t =>
      rw [if_neg (by simp [List.isEmpty])]
      by_cases hy : (sortedYears (a :: t)).isEmpty
      · rw [if_pos hy]
      · rw [if_neg hy]
        exact (gapScan_iff _).mpr hgap
  cases ps with
  | nil => exact absurd rfl hne
  | cons a t =>
    unfold getOverallSchoolStatus
    rw [if_neg (by simp [List.isEmpty]), if_pos hgapb]

/-- Witness for C3: a 2021/2026 coverage gap forces Closed on 2025-06-01
although the 2025-2026 permit alone is Operational there. -/
theorem c3_gap_closed_w :
    getOverallSchoolStatus [⟨"P-001", "2020-2021"⟩, ⟨"P-002", "2025-2026"⟩]
      (daysFromCivil 2025 6 1) = stClosed ∧
    getStatus "2025-2026" (daysFromCivil 2025 6 1) = stOperational :=
  ⟨c3_gap_closed _ _ (by decide) (fun hch => by
      have := (gapScan_iff (sortedYears [⟨"P-001", "2020-2021"⟩, ⟨"P-002", "2025-2026"⟩])).mp
        (by decide)
      exact this hch),
   by decide⟩

/-- C6 counterexample: the non-empty unparsable school-year `abc` yields
the label `Invalid SY`, not `Unknown`. -/
theorem c6_counterexample :
    parseSchoolYearEnd "abc" = none ∧ getStatus "abc" 0 ≠ stUnknown := by
  constructor
  · decide
  · decide

/-- C6 (amended): a non-empty school-year string that fails to parse gets
the distinct sentinel status `Invalid SY` (gray); only an empty/absent
school-year yields `Unknown`.  No exception is involved either way. -/
theorem c6_invalid_sy :
    ∀ (s : String) (now : Int), s ≠ "" → parseSchoolYearEnd s = none →
      getStatus s now = stInvalidSY := by
  intro s now hs hp
  unfold getStatus
  rw [if_neg hs, hp]

/-- Witness for C6. -/
theorem c6_invalid_sy_w : getStatus "abc" 0 = stInvalidSY :=
  c6_invalid_sy "abc" 0 (by decide) (by decide)

/-- C10: a nonempty permit list none of whose school-years parses is
Closed: the unparsable years are filtered out, the empty filtered list is
treated as a coverage gap, and the gap branch wins before any per-permit
status is consulted. -/
theorem c10_unparsable_closed :
    ∀ (ps : List SPermit) (now : Int), ps ≠ [] →
      (∀ p ∈ ps, parseSchoolYearEnd p.schoolYear = none) →
      getOverallSchoolStatus ps now = stClosed := by
  intro ps now hne hall
  have hfm : ps.filterMap (fun p => parseSchoolYearEnd p.schoolYear) = [] :=
    List.filterMap_eq_nil_iff.mpr hall
  have hyears : sortedYears ps = [] := by
    unfold sortedYears
    rw [hfm]
    rfl
  have hgapb : hasPermitGap ps = true := by
    unfold hasPermitGap
    cases ps with
    | nil => exact absurd rfl hne
    | cons a t =>
      rw [if_neg (by simp [List.isEmpty])]
      rw [hyears]
      rfl
  cases ps with
  | nil => exact absurd rfl hne
  | cons a t =>
    unfold getOverallSchoolStatus
    rw [if_neg (by simp [List.isEmpty]), if_pos hgapb]

/-- Witness for C10. -/
theorem c10_unparsable_closed_w :
    getOverallSchoolStatus [⟨"P-001", "abc"⟩] 0 = stClosed :=
  c10_unparsable_closed [⟨"P-001", "abc"⟩] 0 (by decide) (by decide)

/-!  Lemmas about the normalizer stages, for claim C7. -/

theorem chmap_id_of (c : Char) (h1 : ¬ c = '|') (h2 : ¬ c = '[') (h3 : ¬ c = ']')
    (h4 : ¬ c.toNat = 123) (h5 : ¬ c.toNat = 125) : chmap c = c := by
  unfold chmap
  rw [if_neg h1, if_neg h2, if_neg h3, if_neg h4, if_neg h5]

theorem chmap_idem (c : Char) : chmap (chmap c) = chmap c := by
  by_cases h1 : c = '|'
  · subst h1; decide
  by_cases h2 : c = '['
  · subst h2; decide
  by_cases h3 : c = ']'
  · subst h3; decide
  by_cases h4 : c.toNat = 123
  · have hc : chmap c = '(' := by
      unfold chmap
      rw [if_neg h1, if_neg h2, if_neg h3, if_pos h4]
    rw [hc]
    decide
  by_cases h5 : c.toNat = 125
  · have hc : chmap c = ')' := by
      unfold chmap
      rw [if_neg h1, if_neg h2, if_neg h3, if_neg h4, if_pos h5]
    rw [hc]
    decide
  rw [chmap_id_of c h1 h2 h3 h4 h5, chmap_id_of c h1 h2 h3 h4 h5]

theorem ocrInert_chmap (c : Char) (h : ocrInert c = true) : ocrInert (chmap c) = true := by
  unfold chmap
  split_ifs <;> first | decide | exact h

theorem ocrInert_conds (c : Char) (h : ocrInert c = true) :
    c ≠ '0' ∧ toLowerA c ≠ 's' ∧ c ≠ 'l' ∧ toLowerA c ≠ 'm' ∧ ¬ isStrippedCtl c = true := by
  simp only [ocrInert, decide_eq_true_eq] at h
  push_neg at h
  exact ⟨h.1, h.2.1, h.2.2.1, h.2.2.2.1, h.2.2.2.2⟩

theorem dropYearS_id (l : List Char) (h : ∀ c ∈ l, toLowerA c ≠ 's') :
    dropYearS l = l := by
  induction l with
  | nil => rfl
  | cons a t ih =>
    cases t with
    | nil => rfl
    | cons b r =>
      have hb : toLowerA b ≠ 's' := h b (by simp)
      have hcond : ¬ (isDigitA a ∧ (b = 's' ∨ b = 'S') ∧ wsHead r) := by
        rintro ⟨-, hb2, -⟩
        cases hb2 with
        | inl h2 => subst h2; exact hb (by decide)
        | inr h2 => subst h2; exact hb (by decide)
      simp only [dropYearS, if_neg hcond]
      rw [ih (fun c hc => h c (List.mem_cons_of_mem _ hc))]

theorem fixLetterZero_id (l : List Char) (h : ∀ c ∈ l, c ≠ '0') :
    fixLetterZero l = l := by
  induction l with
  | nil => rfl
  | cons a t ih =>
    cases t with
    | nil => rfl
    | cons b r =>
      have hb : b ≠ '0' := h b (by simp)
      have hcond : ¬ (isAsciiLetter a ∧ b = '0') := by
        rintro ⟨-, h0⟩
        exact hb h0
      simp only [fixLetterZero, if_neg hcond]
      rw [ih (fun c hc => h c (List.mem_cons_of_mem _ hc))]

theorem fixZeroLetter_id (l : List Char) (h : ∀ c ∈ l, c ≠ '0') :
    fixZeroLetter l = l := by
  induction l with
  | nil => rfl
  | cons a t ih =>
    cases t with
    | nil => rfl
    | cons b r =>
      have ha : a ≠ '0' := h a (by simp)
      have hcond : ¬ (a = '0' ∧ isAsciiLetter b) := by
        rintro ⟨h0, -⟩
        exact ha h0
      simp only [fixZeroLetter, if_neg hcond]
      rw [ih (fun c hc => h c (List.mem_cons_of_mem _ hc))]

theorem fixTripleL_id (l : List Char) (h : ∀ c ∈ l, c ≠ 'l') :
    fixTripleL l = l := by
  induction l with
  | nil => rfl
  | cons a t ih =>
    cases t with
    | nil => rfl
    | cons b r =>
      cases r with
      | nil => rfl
      | cons c2 r2 =>
        have ha : a ≠ 'l' := h a (by simp)
        have hcond : ¬ (a = 'l' ∧ b = 'l' ∧ c2 = 'l') := by
          rintro ⟨h0, -, -⟩
          exact ha h0
        simp only [fixTripleL, if_neg hcond]
        rw [ih (fun c hc => h c (List.mem_cons_of_mem _ hc))]

theorem stripCI_mem (w : List Char) :
    ∀ (l r : List Char), stripCI w l = some r → ∀ c ∈ r, c ∈ l := by
  induction w with
  | nil =>
    intro l r h c hc
    simp only [stripCI] at h
    cases h
    exact hc
  | cons a as ih =>
    intro l r h c hc
    cases l with
    | nil => simp [stripCI] at h
    | cons b bs =>
      simp only [stripCI] at h
      by_cases hab : toLowerA b = toLowerA a
      · rw [if_pos hab] at h
        exact List.mem_cons_of_mem _ (ih bs r h c hc)
      · rw [if_neg hab] at h
        cases h

theorem splitWordMatch_none (w1 w2 : List Char) (l : List Char)
    (hm : ∀ c ∈ l, toLowerA c ≠ 'm') (hw : ∃ w2t, w2 = 'M' :: w2t) :
    splitWordMatch w1 w2 l = none := by
  obtain ⟨w2t, rfl⟩ := hw
  unfold splitWordMatch
  cases hstrip : stripCI w1 l with
  | none => rfl
  | some r1 =>
    show stripCI ('M' :: w2t) (r1.dropWhile isJsWs) = none
    have hr1 : ∀ c ∈ r1, toLowerA c ≠ 'm' :=
      fun c hc => hm c (stripCI_mem w1 l r1 hstrip c hc)
    have hr2 : ∀ c ∈ r1.dropWhile isJsWs, toLowerA c ≠ 'm' :=
      fun c hc => hr1 c ((List.dropWhile_sublist isJsWs).subset hc)
    cases hd : r1.dropWhile isJsWs with
    | nil => rfl
    | cons x xs =>
      have hx : toLowerA x ≠ 'm' := hr2 x (by rw [hd]; exact List.mem_cons_self x xs)
      have hxM : ¬ toLowerA x = toLowerA 'M' := by
        intro hEq
        exact hx (hEq.trans (by decide))
      simp only [stripCI, if_neg hxM]

theorem fixSplitGo_ment_id (w1 w2t repl : List Char) :
    ∀ (fuel : Nat) (l : List Char), (∀ c ∈ l, toLowerA c ≠ 'm') →
      fixSplitGo w1 ('M' :: w2t) repl fuel l = l := by
  intro fuel
  induction fuel with
  | zero => intro l _; rfl
  | succ f ih =>
    intro l h
    cases l with
    | nil => rfl
    | cons c cs =>
      simp only [fixSplitGo]
      rw [splitWordMatch_none w1 ('M' :: w2t) (c :: cs) h ⟨w2t, rfl⟩]
      rw [ih cs (fun x hx => h x (List.mem_cons_of_mem _ hx))]

theorem fixSplitWord_ment_id (w1 repl : String) (l : List Char)
    (h : ∀ c ∈ l, toLowerA c ≠ 'm') : fixSplitWord w1 "MENT" repl l = l := by
  unfold fixSplitWord
  have hd : "MENT".data = 'M' :: "ENT".data := rfl
  rw [hd]
  exact fixSplitGo_ment_id w1.data "ENT".data repl.data l.length l h

/-- Reduction of `cleanOCRText` on inert text: only the five character
substitutions can act. -/
theorem cleanOCR_inert (s : String) (hs : ¬ s = "") (h : ∀ c ∈ s.data, ocrInert c = true) :
    cleanOCRText s = String.mk (s.data.map chmap) := by
  unfold cleanOCRText
  rw [if_neg hs]
  have hl : ∀ c ∈ s.data.map chmap, ocrInert c = true := by
    intro c hc
    obtain ⟨a, ha, rfl⟩ := List.mem_map.mp hc
    exact ocrInert_chmap a (h a ha)
  have hS : ∀ c ∈ s.data.map chmap, toLowerA c ≠ 's' :=
    fun c hc => (ocrInert_conds c (hl c hc)).2.1
  have h0 : ∀ c ∈ s.data.map chmap, c ≠ '0' :=
    fun c hc => (ocrInert_conds c (hl c hc)).1
  have hL : ∀ c ∈ s.data.map chmap, c ≠ 'l' :=
    fun c hc => (ocrInert_conds c (hl c hc)).2.2.1
  have hM : ∀ c ∈ s.data.map chmap, toLowerA c ≠ 'm' :=
    fun c hc => (ocrInert_conds c (hl c hc)).2.2.2.1
  have hCtl : ∀ c ∈ s.data.map chmap, ¬ isStrippedCtl c = true :=
    fun c hc => (ocrInert_conds c (hl c hc)).2.2.2.2
  rw [dropYearS_id _ hS, fixLetterZero_id _ h0, fixZeroLetter_id _ h0,
    fixSplitWord_ment_id _ _ _ hM, fixSplitWord_ment_id _ _ _ hM, fixTripleL_id _ hL]
  congr 1
  refine List.filter_eq_self.mpr ?_
  intro a ha
  simpa using hCtl a ha

/-!  Claim C7. -/

/-- C7 counterexample: `normalize` is not idempotent.  On `a00` the first
pass rewrites `a0` to `ao`, creating the new letter-zero pair `o0`, which
the second pass rewrites again: `a00 -> ao0 -> aoo`. -/
theorem c7_counterexample :
    cleanOCRText (cleanOCRText "a00") ≠ cleanOCRText "a00" := by decide

/-- C7 (amended): `normalize` is idempotent on strings whose characters
cannot re-trigger a substitution: no digit 0, no `s`/`S`, no lowercase `l`,
no `m`/`M`, and no stripped control character.  On general strings
idempotence fails (see the counterexample). -/
theorem c7_idem_amended :
    ∀ s : String, (∀ c ∈ s.data, ocrInert c = true) →
      cleanOCRText (cleanOCRText s) = cleanOCRText s := by
  intro s h
  by_cases hs : s = ""
  · subst hs; rfl
  · rw [cleanOCR_inert s hs h]
    by_cases hz : String.mk (s.data.map chmap) = ""
    · rw [hz]
      rfl
    · have h2 : ∀ c ∈ (String.mk (s.data.map chmap)).data, ocrInert c = true := by
        intro c hc
        obtain ⟨a, ha, rfl⟩ := List.mem_map.mp hc
        exact ocrInert_chmap a (h a ha)
      rw [cleanOCR_inert _ hz h2]
      show String.mk ((s.data.map chmap).map chmap) = String.mk (s.data.map chmap)
      rw [List.map_map]
      have hcc : chmap ∘ chmap = chmap := funext chmap_idem
      rw [hcc]

/-- Witness for C7 on an inert concrete string (pipes and brackets are
still rewritten, but a second pass changes nothing). -/
theorem c7_idem_amended_w :
    cleanOCRText (cleanOCRText "GRANTED TO: R-I|I") = cleanOCRText "GRANTED TO: R-I|I" :=
  c7_idem_amended "GRANTED TO: R-I|I" (by decide)

/-!  Lemmas about the dedup step and the family builders. -/

theorem dedupGo_first :
    ∀ (l : List PermitDraft) (seen : List String) (p : PermitDraft),
      p ∈ dedupGo l seen →
      ¬ seen.contains (pKey p) = true ∧
        ∃ l1 l2, l = l1 ++ p :: l2 ∧ ∀ q ∈ l1, pKey q ≠ pKey p := by
  intro l
  induction l with
  | nil =>
    intro seen p hp
    simp [dedupGo] at hp
  | cons x rest ih =>
    intro seen p hp
    simp only [dedupGo] at hp
    by_cases hx : seen.contains (pKey x) = true
    · rw [if_pos hx] at hp
      obtain ⟨hns, l1, l2, hdec, hl1⟩ := ih seen p hp
      refine ⟨hns, x :: l1, l2, by rw [hdec]; rfl, ?_⟩
      intro q hq
      rcases List.mem_cons.mp hq with hqx | hql
      · subst hqx
        intro hkey
        rw [hkey] at hx
        exact hns hx
      · exact hl1 q hql
    · rw [if_neg hx] at hp
      rcases List.mem_cons.mp hp with hpx | hpr
      · subst hpx
        exact ⟨hx, [], rest, rfl, fun q hq => absurd hq (List.not_mem_nil q)⟩
      · obtain ⟨hns, l1, l2, hdec, hl1⟩ := ih (pKey x :: seen) p hpr
        have hmem : pKey p ∉ (pKey x :: seen) := fun hIn => hns (List.elem_iff.mpr hIn)
        have hne : pKey p ≠ pKey x :=
          fun hEq => hmem (by rw [hEq]; exact List.mem_cons_self _ _)
        have hnseen : ¬ seen.contains (pKey p) = true :=
          fun hIn => hmem (List.mem_cons_of_mem _ (List.elem_iff.mp hIn))
        refine ⟨hnseen, x :: l1, l2, by rw [hdec]; rfl, ?_⟩
        intro q hq
        rcases List.mem_cons.mp hq with hqx | hql
        · subst hqx
          exact fun hEq => hne hEq.symm
        · exact hl1 q hql

theorem dedupGo_pairwise :
    ∀ (l : List PermitDraft) (seen : List String),
      List.Pairwise (fun p q => pKey p ≠ pKey q) (dedupGo l seen) := by
  intro l
  induction l with
  | nil => intro seen; exact List.Pairwise.nil
  | cons x rest ih =>
    intro seen
    simp only [dedupGo]
    by_cases hx : seen.contains (pKey x) = true
    · rw [if_pos hx]
      exact ih seen
    · rw [if_neg hx]
      refine List.Pairwise.cons ?_ (ih (pKey x :: seen))
      intro q hq hEq
      have hns := (dedupGo_first rest (pKey x :: seen) q hq).1
      apply hns
      apply List.elem_iff.mpr
      rw [← hEq]
      exact List.mem_cons_self _ _

theorem dedupGo_sublist :
    ∀ (l : List PermitDraft) (seen : List String), (dedupGo l seen).Sublist l := by
  intro l
  induction l with
  | nil => intro seen; exact List.Sublist.refl []
  | cons x rest ih =>
    intro seen
    simp only [dedupGo]
    by_cases hx : seen.contains (pKey x) = true
    · rw [if_pos hx]
      exact (ih seen).cons x
    · rw [if_neg hx]
      exact (ih (pKey x :: seen)).cons₂ x

theorem pKey_eq_of_pair (p q : PermitDraft)
    (h : p.permitNumber = q.permitNumber ∧ p.schoolYear = q.schoolYear) :
    pKey p = pKey q := by
  unfold pKey
  rw [h.1, h.2]

theorem fam3_fold_mem :
    ∀ (t : List Char) (ms : List MatchRes) (acc : List PermitDraft) (p : PermitDraft),
      p ∈ ms.foldl (fam3Step t) acc →
      p ∈ acc ∨ ∃ pfx num, p.permitNumber = pfx ++ "-" ++ num ∧ p.levels = fam3Levels pfx := by
  intro t ms
  induction ms with
  | nil =>
    intro acc p hp
    exact Or.inl hp
  | cons m rest ih =>
    intro acc p hp
    rcases ih (fam3Step t acc m) p hp with hstep | hbuilt
    · simp only [fam3Step] at hstep
      split at hstep
      · split at hstep
        · exact Or.inl hstep
        · rcases List.mem_append.mp hstep with hacc | hnew
          · exact Or.inl hacc
          · rcases List.mem_singleton.mp hnew with rfl
            exact Or.inr ⟨_, _, rfl, rfl⟩
      · split at hstep
        · exact Or.inl hstep
        · rcases List.mem_append.mp hstep with hacc | hnew
          · exact Or.inl hacc
          · rcases List.mem_singleton.mp hnew with rfl
            exact Or.inr ⟨_, _, rfl, rfl⟩
    · exact Or.inr hbuilt

theorem fam1_prefix_level :
    ∀ (t : List Char) (p : PermitDraft), p ∈ fam1List t →
      ∀ lv, prefixLvl p.permitNumber = some lv → p.levels = [lv] := by
  intro t p hp lv hlv
  obtain ⟨m, hm, hbuild⟩ := List.mem_filterMap.mp hp
  simp only [buildGp] at hbuild
  split at hbuild
  · cases hbuild
  · cases hbuild
    simp only at hlv ⊢
    rw [hlv]
    rfl

/-!  Claims about the permit extractor. -/

/-- C4: `extractPermits` never returns two entries with an identical
`(permitNumber, schoolYear)` pair, and every returned entry is literally
the first entry of the pre-dedup accumulated list (family 1, then family
2, then family 3, each in scan order) whose key matches — so its levels
and strands are those of that first-seen entry, never merged from later
duplicates. -/
theorem c4_dedup_invariant :
    ∀ text : String,
      List.Pairwise
        (fun p q : PermitDraft =>
          ¬ (p.permitNumber = q.permitNumber ∧ p.schoolYear = q.schoolYear))
        (extractPermitDetails text) ∧
      ∀ p ∈ extractPermitDetails text,
        ∃ l1 l2, famAll (cleanOCRText text).data = l1 ++ p :: l2 ∧
          ∀ q ∈ l1, ¬ (q.permitNumber = p.permitNumber ∧ q.schoolYear = p.schoolYear) := by
  intro text
  unfold extractPermitDetails
  by_cases ht : text = ""
  · rw [if_pos ht]
    exact ⟨List.Pairwise.nil, fun p hp => absurd hp (List.not_mem_nil p)⟩
  · rw [if_neg ht]
    constructor
    · exact (dedupGo_pairwise _ []).imp
        (fun h hpair => h (pKey_eq_of_pair _ _ hpair))
    · intro p hp
      obtain ⟨-, l1, l2, hdec, hl1⟩ := dedupGo_first _ [] p hp
      exact ⟨l1, l2, hdec, fun q hq hpair => hl1 q hq (pKey_eq_of_pair _ _ hpair)⟩

/-- Witness for C4 on the duplicate-collapsing example: the single
returned entry is the first of the two accumulated identical entries. -/
theorem c4_dedup_invariant_w :
    ∃ l1 l2,
      famAll (cleanOCRText "GP No. K-123 s. 2024 GP No. K-123 s. 2024").data =
        l1 ++ (⟨"K-123", "2024", ["Kindergarten"], []⟩ : PermitDraft) :: l2 ∧
      ∀ q ∈ l1,
        ¬ (q.permitNumber =
            (⟨"K-123", "2024", ["Kindergarten"], []⟩ : PermitDraft).permitNumber ∧
          q.schoolYear =
            (⟨"K-123", "2024", ["Kindergarten"], []⟩ : PermitDraft).schoolYear) :=
  (c4_dedup_invariant "GP No. K-123 s. 2024 GP No. K-123 s. 2024").2
    ⟨"K-123", "2024", ["Kindergarten"], []⟩ (by decide)

/-- C5 counterexample: in the Government Recognition family the
permit-number prefix is ignored.  Here the permit number is `SHS-089`
(prefix-implied level Senior High School) but the extractor returns the
contextual level Elementary. -/
theorem c5_counterexample :
    extractPermitDetails "Elementary Government Recognition No. SHS-089, s. 2018" =
      [⟨"SHS-089", "2018", ["Elementary"], []⟩] ∧
    prefixLvl "SHS-089" = some "Senior High School" ∧
    (["Elementary"] : List String) ≠ ["Senior High School"] := by
  refine ⟨by decide, by decide, by decide⟩

/-- C5 (amended): the prefix-precedence rule holds for entries built by
family 1 (the prefix chain, when it fires, fixes the level set to exactly
the prefix-implied singleton, whatever the surrounding text says) and for
entries built by family 3 (whose level set is always exactly the singleton
determined by the matched prefix token); entries built by family 2
(Government Recognition) take their levels from the surrounding text and
ignore the prefix. -/
theorem c5_prefix_precedence :
    ∀ (text : String) (p : PermitDraft), p ∈ extractPermitDetails text →
      (p ∈ fam1List (cleanOCRText text).data ∧
        ∀ lv, prefixLvl p.permitNumber = some lv → p.levels = [lv]) ∨
      p ∈ fam2List (cleanOCRText text).data ∨
      (∃ pfx num, p.permitNumber = pfx ++ "-" ++ num ∧ p.levels = fam3Levels pfx) := by
  intro text p hp
  unfold extractPermitDetails at hp
  by_cases ht : text = ""
  · rw [if_pos ht] at hp
    cases hp
  · rw [if_neg ht] at hp
    have hmem : p ∈ famAll (cleanOCRText text).data := (dedupGo_sublist _ []).subset hp
    unfold famAll at hmem
    rcases fam3_fold_mem _ _ _ p hmem with hin | hbuilt
    · rcases List.mem_append.mp hin with h1 | h2
      · exact Or.inl ⟨h1, fam1_prefix_level _ p h1⟩
      · exact Or.inr (Or.inl h2)
    · exact Or.inr (Or.inr hbuilt)

/-- Witness for C5: the family-1 example of the spec, where the SHS-
prefix fixes the level. -/
theorem c5_prefix_precedence_w :
    (⟨"SHS-089", "2018", ["Senior High School"], []⟩ : PermitDraft) ∈
      extractPermitDetails "Government Permit No. SHS-089, s. 2018" ∧
    (((⟨"SHS-089", "2018", ["Senior High School"], []⟩ : PermitDraft) ∈
        fam1List (cleanOCRText "Government Permit No. SHS-089, s. 2018").data ∧
      ∀ lv,
        prefixLvl (⟨"SHS-089", "2018", ["Senior High School"], []⟩ :
          PermitDraft).permitNumber = some lv →
        (⟨"SHS-089", "2018", ["Senior High School"], []⟩ : PermitDraft).levels = [lv]) ∨
    (⟨"SHS-089", "2018", ["Senior High School"], []⟩ : PermitDraft) ∈
      fam2List (cleanOCRText "Government Permit No. SHS-089, s. 2018").data ∨
    (∃ pfx num,
      (⟨"SHS-089", "2018", ["Senior High School"], []⟩ : PermitDraft).permitNumber =
        pfx ++ "-" ++ num ∧
      (⟨"SHS-089", "2018", ["Senior High School"], []⟩ : PermitDraft).levels =
        fam3Levels pfx)) :=
  ⟨by decide,
   c5_prefix_precedence "Government Permit No. SHS-089, s. 2018"
     ⟨"SHS-089", "2018", ["Senior High School"], []⟩ (by decide)⟩

/-- C8: the exact example of the claim.  `extractPermits` on
`Government Permit No. SHS-089, s. 2018` yields exactly one draft with
number `SHS-089`, school year `2018`, level set exactly Senior High
School, and no strands. -/
theorem c8_example :
    extractPermitDetails "Government Permit No. SHS-089, s. 2018" =
      [⟨"SHS-089", "2018", ["Senior High School"], []⟩] := by decide

/-- C9: the engine functions are total Lean functions (hence non-throwing
by construction) and degrade to empty results: the normalizer maps empty
to empty, the extractor maps empty input to empty drafts, an input on
which no permit pattern matches yields the empty permit list, and an input
on which no name strategy and no address pattern produces a candidate
yields empty-string fields. -/
theorem c9_total_degrade :
    cleanOCRText "" = "" ∧
    extractSchoolInfoFromText "" = ⟨"", ""⟩ ∧
    extractPermitDetails "" = [] ∧
    (∀ text : String,
      execAll gpRE (cleanOCRText text).data = [] →
      execAll grRE (cleanOCRText text).data = [] →
      execAll directRE (cleanOCRText text).data = [] →
      extractPermitDetails text = []) ∧
    (∀ text : String,
      nameStrat1 (cleanOCRText text) = "" → nameStrat2 (cleanOCRText text) = "" →
      nameStrat3 (cleanOCRText text) = "" → nameStrat4 (cleanOCRText text) = "" →
      reFindL addrRE1 (cleanOCRText text).data = none →
      reFindL addrRE2 (cleanOCRText text).data = none →
      extractSchoolInfoFromText text = ⟨"", ""⟩) := by
  refine ⟨rfl, rfl, rfl, ?_, ?_⟩
  · intro text h1 h2 h3
    unfold extractPermitDetails
    by_cases ht : text = ""
    · rw [if_pos ht]
    · rw [if_neg ht]
      unfold famAll fam1List fam2List
      rw [h1, h2, h3]
      rfl
  · intro text h1 h2 h3 h4 h5 h6
    unfold extractSchoolInfoFromText
    by_cases ht : text = ""
    · rw [if_pos ht]
    · rw [if_neg ht]
      simp [h1, h2, h3, h4, h5, h6]

/-- Witness for C9 on the patternless input `hello`. -/
theorem c9_total_degrade_w :
    extractPermitDetails "hello" = [] ∧ extractSchoolInfoFromText "hello" = ⟨"", ""⟩ :=
  ⟨c9_total_degrade.2.2.2.1 "hello" (by decide) (by decide) (by decide),
   c9_total_degrade.2.2.2.2 "hello" (by decide) (by decide) (by decide) (by decide)
     (by decide) (by decide)⟩

end DepEd
